import Mathlib

/-!
Shallow embedding of the endpoint-usage-tracker core: the
`EndpointUsageTracker` class (src/unnamed/part_001) and the
`AutomaticReporter` (src/src/automatic-reporter.ts).

Modelling conventions:
* a Redis hash is a function from field names to optional rational values
  (`none` = absent field);
* JS numbers are rationals; where NaN/Infinity propagation matters
  (the reporter's `unusedPercentage`) a dedicated `JsNum` type is used;
* JS strings are lists of characters where character-level manipulation
  matters (the endpoint-key normalizer and the key `split(':', 2)`);
* timestamps are integers (milliseconds, as produced by `Date.now()`).
-/

/-- A Redis hash: a partial map from field names to numeric values.
Absent fields read as `none`. -/
abbrev Hash := String → Option ℚ

/-- The hash of a key that has never been written. -/
def emptyHash : Hash := fun _ => none

/-- Redis `HSET`: unconditionally set one field. -/
def hset (h : Hash) (f : String) (v : ℚ) : Hash :=
  fun g => if g = f then some v else h g

/-- Redis `HSETNX`: set the field only if it is absent. -/
def hsetnx (h : Hash) (f : String) (v : ℚ) : Hash :=
  match h f with
  | some _ => h
  | none => hset h f v

/-- Redis `HINCRBY` / `HINCRBYFLOAT`: add to the field, treating an absent
field as 0. -/
def hincr (h : Hash) (f : String) (v : ℚ) : Hash :=
  hset h f ((h f).getD 0 + v)

/-- Truthiness of an optional JS number (`if (x) ...`): `undefined` and `0`
are falsy, every other number is truthy. -/
def optTruthy : Option ℚ → Bool
  | none => false
  | some x => decide (x ≠ 0)

/-- One tracked request after `trackUsage` stamped it with `Date.now()`
(`UsageData` in src/src/types.ts).  Fields that the aggregate updates never
read (method, path, userAgent, ip) are dropped: the endpoint key is derived
before the per-record updates run. -/
structure UsageData where
  timestamp : ℤ
  statusCode : ℤ
  responseTime : Option ℚ
  memoryUsage : Option ℚ
  cpuUsage : Option ℚ
deriving DecidableEq

/-- The dynamic field name `status_${statusCode}`. -/
def statusField (c : ℤ) : String := "status_" ++ toString c

/-- `updateCounters` (part_001 lines 155-170): the pipelined update of the
`global:{endpoint}` hash for one event. -/
def updateCounters (data : UsageData) (h : Hash) : Hash :=
  let h1 := hincr h "count" 1
  let h2 := hsetnx h1 "first_accessed" (data.timestamp : ℚ)
  let h3 := hset h2 "last_accessed" (data.timestamp : ℚ)
  let h4 := hincr h3 (statusField data.statusCode) 1
  if optTruthy data.responseTime then
    hincr (hincr h4 "total_response_time" (data.responseTime.getD 0)) "response_count" 1
  else h4

/-- `updateDailyStats` (part_001 lines 127-153): the pipelined update of the
`daily:{today}:{endpoint}` hash for one event.  The per-UTC-day key routing
is outside the per-record update modelled here. -/
def updateDailyStats (data : UsageData) (h : Hash) : Hash :=
  let h1 := hincr h "count" 1
  let h2 := hincr h1 (statusField data.statusCode) 1
  let h3 := hsetnx h2 "first_accessed" (data.timestamp : ℚ)
  let h4 := hset h3 "last_accessed" (data.timestamp : ℚ)
  if optTruthy data.responseTime then
    hincr (hincr h4 "total_response_time" (data.responseTime.getD 0)) "response_count" 1
  else h4

/-- The `performance:{endpoint}` record: the named hash fields together with
the `throughput_${minuteEpochMs}` bucket fields, modelled as an association
list from minute epoch to counter value (a bucket field name
`throughput_<n>` never collides with any named field). -/
structure PerfRec where
  h : Hash
  buckets : List (ℤ × ℚ)

/-- The performance record of a key that has never been written. -/
def emptyPerf : PerfRec := ⟨emptyHash, []⟩

/-- `HINCRBY` on the bucket field for minute `m`. -/
def bumpBucket (m : ℤ) : List (ℤ × ℚ) → List (ℤ × ℚ)
  | [] => [(m, 1)]
  | (k, v) :: t => if k = m then (k, v + 1) :: t else (k, v) :: bumpBucket m t

/-- `Math.floor(timestamp / 60000) * 60000` (part_001 line 292). -/
def minuteKey (ts : ℤ) : ℤ := ⌊(ts : ℚ) / 60000⌋ * 60000

/-- `cleanupOldThroughputData` (part_001 lines 304-318): delete every bucket
whose minute epoch is strictly before `currentTimestamp - 3600000`. -/
def cleanupOldThroughputData (currentTimestamp : ℤ) (bs : List (ℤ × ℚ)) : List (ℤ × ℚ) :=
  bs.filter (fun p => decide (currentTimestamp - 3600000 ≤ p.1))

/-- `updatePerformanceStats` (part_001 lines 253-302) in the
performance-tracking-enabled case: the pipelined hash update followed by the
bucket bump and the cleanup pass. -/
def updatePerformanceStats (slowThresholdMs : ℚ) (data : UsageData) (r : PerfRec) : PerfRec :=
  let h1 := hincr r.h "total_requests" 1
  let h2 := hsetnx h1 "first_accessed" (data.timestamp : ℚ)
  let h3 := hset h2 "last_accessed" (data.timestamp : ℚ)
  let h4 :=
    if optTruthy data.responseTime then
      let ha := hincr h3 "total_response_time" (data.responseTime.getD 0)
      let hb := hincr ha "response_count" 1
      if data.responseTime.getD 0 > slowThresholdMs then hincr hb "slow_requests" 1 else hb
    else h3
  let h5 := if data.statusCode ≥ 400 then hincr h4 "error_requests" 1 else h4
  let h6 :=
    if optTruthy data.memoryUsage then
      hincr (hincr h5 "total_memory" (data.memoryUsage.getD 0)) "memory_count" 1
    else h5
  let h7 :=
    if optTruthy data.cpuUsage then
      hincr (hincr h6 "total_cpu" (data.cpuUsage.getD 0)) "cpu_count" 1
    else h6
  let bs := bumpBucket (minuteKey data.timestamp) r.buckets
  ⟨h7, cleanupOldThroughputData data.timestamp bs⟩

/-- JS `s.split(':', 2)[0]`: the part of `s` before its first `:`. -/
def splitColon2Fst (s : List Char) : List Char := s.takeWhile (· ≠ ':')

/-- JS `s.split(':', 2)[1]`: the part of `s` strictly between its first and
second `:` (everything after the first `:` when there is no second one). -/
def splitColon2Snd (s : List Char) : List Char :=
  ((s.dropWhile (· ≠ ':')).drop 1).takeWhile (· ≠ ':')

/-- The character class `[a-f0-9-]` of the UUID-segment regex. -/
def isHexDash (c : Char) : Bool :=
  (decide ('a' ≤ c) && decide (c ≤ 'f')) ||
  (decide ('0' ≤ c) && decide (c ≤ '9')) ||
  decide (c = '-')

/-- Whether the next `n` characters exist and all lie in `[a-f0-9-]`. -/
def isH : ℕ → List Char → Bool
  | 0, _ => true
  | _ + 1, [] => false
  | n + 1, c :: t => isHexDash c && isH n t

/-- Whether a list of characters starts with a decimal digit. -/
def headDigit : List Char → Bool
  | [] => false
  | c :: _ => c.isDigit

/-- Global replacement of the regex `/\/\d+/g` by `/:id` (part_001 line 93):
scan left to right; at a `/` followed by at least one digit, emit `/:id` and
resume after the maximal digit run. -/
def digitRep : List Char → List Char
  | [] => []
  | c :: t =>
    if c = '/' && headDigit t then
      '/' :: ':' :: 'i' :: 'd' :: digitRep (t.dropWhile Char.isDigit)
    else
      c :: digitRep t
termination_by l => l.length
decreasing_by
  all_goals simp only [List.length_cons, List.length_drop]
  all_goals first
    | exact Nat.lt_succ_of_le (List.Sublist.length_le (List.dropWhile_sublist _))
    | omega

/-- Global replacement of the regex `/\/[a-f0-9-]{36}/g` by `/:uuid`
(part_001 line 94): at a `/` followed by exactly 36 class characters, emit
`/:uuid` and resume after them. -/
def uuidRep : List Char → List Char
  | [] => []
  | c :: t =>
    if c = '/' && isH 36 t then
      '/' :: ':' :: 'u' :: 'u' :: 'i' :: 'd' :: uuidRep (t.drop 36)
    else
      c :: uuidRep t
termination_by l => l.length
decreasing_by
  all_goals simp only [List.length_cons, List.length_drop]
  all_goals omega

/-- The path-rewriting part of `normalizeEndpoint` (part_001 lines 88-95):
optionally strip the query string, then apply the `/:id` substitution, then
the `/:uuid` substitution. -/
def normalizePath (includeQueryParams : Bool) (path : List Char) : List Char :=
  let p := if includeQueryParams then path else path.takeWhile (· ≠ '?')
  uuidRep (digitRep p)

/-- `normalizeEndpoint` (part_001 lines 87-97): the endpoint key
`${method.toUpperCase()}:${path}` after path rewriting. -/
def normalizeEndpoint (includeQueryParams : Bool) (method path : List Char) : List Char :=
  (method.map Char.toUpper) ++ ':' :: normalizePath includeQueryParams path

/-- The `EndpointStats` read model that `getEndpointStats` builds from one
`global:{METHOD}:{path}` hash (part_001 lines 328-354).  `averageResponseTime`
is `undefined` (`none`) when `response_count` is 0; the status-code map is
not needed by any claim and is omitted. -/
structure EndpointStatsM where
  method : List Char
  path : List Char
  count : ℚ
  firstAccessed : ℚ
  lastAccessed : ℚ
  averageResponseTime : Option ℚ
deriving DecidableEq

/-- The per-record body of the `getEndpointStats` loop (part_001 lines
332-354), applied to the key remainder `{METHOD}:{path}` and its hash. -/
def statsOfGlobalRec (endpoint : List Char) (h : Hash) : EndpointStatsM :=
  let responseCount := (h "response_count").getD 0
  { method := splitColon2Fst endpoint
    path := splitColon2Snd endpoint
    count := (h "count").getD 0
    firstAccessed := (h "first_accessed").getD 0
    lastAccessed := (h "last_accessed").getD 0
    averageResponseTime :=
      if responseCount > 0 then
        some (((h "total_response_time").getD 0) / responseCount)
      else none }

/-- `getEndpointStats` with no filter (part_001 lines 320-358): one stats
record per stored `global` record, sorted by descending `count` (the JS
comparator `(a, b) => b.count - a.count`).  The store is the association
list of (key remainder, hash) pairs of existing — hence non-empty —
records. -/
def getEndpointStats (recs : List (List Char × Hash)) : List EndpointStatsM :=
  (recs.map (fun r => statsOfGlobalRec r.1 r.2)).mergeSort
    (fun a b => decide (b.count ≤ a.count))

/-- `getUnusedEndpoints` (part_001 lines 360-366): keep the stats with
`lastAccessed < thresholdDate` (strict).  `thresholdDate` — `new Date()`
shifted back `daysThreshold` days via `setDate` — is modelled as
`now − daysThreshold·86400000` ms (fixed 24-hour days). -/
def getUnusedEndpoints (now : ℤ) (daysThreshold : ℤ)
    (recs : List (List Char × Hash)) : List EndpointStatsM :=
  (getEndpointStats recs).filter
    (fun s => decide (s.lastAccessed < (now : ℚ) - daysThreshold * 86400000))

/-- `calculatePercentile` (part_001 lines 175-181): sort ascending (the JS
comparator `(a, b) => a - b`), take index `ceil(p/100·n) − 1` clamped below
by 0.  JS indexing past the end yields `undefined`; this is modelled with
`getD _ 0`, and the theorems evaluate the function only at the in-range
percentiles the claims mention. -/
def calculatePercentile (values : List ℚ) (percentile : ℚ) : ℚ :=
  if values = [] then 0
  else
    let sorted := values.mergeSort (fun a b => decide (a ≤ b))
    sorted.getD (max 0 (⌈percentile / 100 * (sorted.length : ℚ)⌉ - 1)).toNat 0

/-- The `PerformanceMetrics` that `getPerformanceStats` builds for one
performance record (part_001 lines 213-222), given the response-time
samples recovered from the raw event list. -/
structure PerformanceMetricsM where
  p50ResponseTime : ℚ
  p95ResponseTime : ℚ
  p99ResponseTime : ℚ
  slowRequestCount : ℚ
  errorRate : ℚ
  throughput : ℚ
  memoryUsage : ℚ
  cpuUsage : ℚ
deriving DecidableEq

/-- The body of the `getPerformanceStats` loop building `performance`
(part_001 lines 209-222). -/
def perfMetricsOfRec (responseTimes : List ℚ) (r : PerfRec) : PerformanceMetricsM :=
  let totalRequests := (r.h "total_requests").getD 0
  { p50ResponseTime := calculatePercentile responseTimes 50
    p95ResponseTime := calculatePercentile responseTimes 95
    p99ResponseTime := calculatePercentile responseTimes 99
    slowRequestCount := (r.h "slow_requests").getD 0
    errorRate := if totalRequests > 0 then ((r.h "error_requests").getD 0) / totalRequests else 0
    throughput := (r.h "throughput").getD 0
    memoryUsage := (r.h "avg_memory").getD 0
    cpuUsage := (r.h "avg_cpu").getD 0 }

/-- The `averageResponseTime` field of the `EndpointStats` that
`getPerformanceStats` pushes (part_001 line 230):
`parseFloat(data.avg_response_time || '0')`. -/
def perfStatsAvgResponseTime (r : PerfRec) : ℚ :=
  (r.h "avg_response_time").getD 0

/-- The sum of the values of the currently retained (unpruned) throughput
bucket fields of a performance record. -/
def bucketSum (r : PerfRec) : ℚ :=
  (r.buckets.map Prod.snd).sum

/-- A JS number for the reporter arithmetic: NaN, a signed infinity
(`true` = positive), or a finite value. -/
inductive JsNum where
  | nan : JsNum
  | inf : Bool → JsNum
  | fin : ℚ → JsNum
deriving DecidableEq

/-- JS division on numbers: NaN propagates; `0/0` is NaN; `a/0` for
`a ≠ 0` is a signed infinity; finite division is exact. -/
def jsDiv : JsNum → JsNum → JsNum
  | .nan, _ => .nan
  | _, .nan => .nan
  | .inf _, .inf _ => .nan
  | .inf s, .fin b => if b < 0 then .inf (!s) else .inf s
  | .fin _, .inf _ => .fin 0
  | .fin a, .fin b =>
    if b = 0 then (if a = 0 then .nan else .inf (decide (0 < a)))
    else .fin (a / b)

/-- JS multiplication on numbers: NaN propagates; `±∞ · 0` is NaN. -/
def jsMul : JsNum → JsNum → JsNum
  | .nan, _ => .nan
  | _, .nan => .nan
  | .inf s, .inf t => .inf (s == t)
  | .inf s, .fin b => if b = 0 then .nan else .inf (s == decide (0 < b))
  | .fin a, .inf t => if a = 0 then .nan else .inf (t == decide (0 < a))
  | .fin a, .fin b => .fin (a * b)

/-- JS `Math.round`: NaN and infinities pass through; a finite value is
rounded half towards positive infinity. -/
def jsRound : JsNum → JsNum
  | .nan => .nan
  | .inf s => .inf s
  | .fin q => .fin (⌊q + 1 / 2⌋ : ℤ)

/-- The `unusedPercentage` computation of `generateReport`
(automatic-reporter.ts line 226):
`Math.round((usageReport.unused / usageReport.total) * 100)`. -/
def unusedPercentage (unused total : ℕ) : JsNum :=
  jsRound (jsMul (jsDiv (.fin unused) (.fin total)) (.fin 100))

/-- The slice of a generated `UsageReport` that the dispatch decision reads:
its list of unused endpoints (identified by their route keys). -/
structure ReportM where
  unusedEndpoints : List (List Char)
deriving DecidableEq

/-- Which notification channels and outputs are configured
(`config.notifications.*` and `config.htmlReport`). -/
structure NotifCfg where
  webhook : Bool
  slack : Bool
  email : Bool
  htmlEnabled : Bool
deriving DecidableEq

/-- Which deliveries one scheduler tick attempts. -/
structure TickActions where
  webhookSent : Bool
  slackSent : Bool
  emailSent : Bool
  htmlWritten : Bool
deriving DecidableEq

/-- The tick with no delivery attempted and no HTML report produced. -/
def noActions : TickActions := ⟨false, false, false, false⟩

/-- `generateAndSendReport` (automatic-reporter.ts lines 135-157), reduced
to its dispatch decisions: when the generated report has no unused
endpoints the method returns before any notification or HTML output;
otherwise `sendNotifications` fans out to every configured channel and the
HTML report is produced when enabled. -/
def generateAndSendReport (cfg : NotifCfg) (report : ReportM) : TickActions :=
  if report.unusedEndpoints.length = 0 then noActions
  else ⟨cfg.webhook, cfg.slack, cfg.email, cfg.htmlEnabled⟩

/-- Whether a character list is free of `/\d` matches: no `/` immediately
followed by a digit (the fixed points of `digitRep`). -/
def noSD : List Char → Bool
  | [] => true
  | [_] => true
  | a :: b :: t => !(a = '/' && b.isDigit) && noSD (b :: t)

/-- Whether a character list is free of `/[a-f0-9-]{36}` matches (the fixed
points of `uuidRep`). -/
def noSH : List Char → Bool
  | [] => true
  | c :: t => !(c = '/' && isH 36 t) && noSH t

/-! Hash-level helper lemmas used by the hash-chase proofs below. -/

theorem hset_apply (h : Hash) (f g : String) (v : ℚ) :
    hset h f v g = if g = f then some v else h g := rfl

theorem hincr_apply (h : Hash) (f g : String) (v : ℚ) :
    hincr h f v g = if g = f then some ((h f).getD 0 + v) else h g := rfl

theorem hsetnx_apply (h : Hash) (f g : String) (v : ℚ) :
    hsetnx h f v g = if g = f then (if h f = none then some v else h f) else h g := by
  unfold hsetnx
  cases hf : h f
  · simp [hset_apply, hf]
  · simp only [hf]
    split
    · rename_i hg
      rw [hg, hf]
      simp
    · rfl

theorem statusField_ne (c : ℤ) (s : String) (hs : s.data.take 7 ≠ "status_".data) :
    statusField c ≠ s := by
  intro h
  apply hs
  rw [← h]
  unfold statusField
  rw [String.data_append]
  exact List.take_left' (by decide)

theorem eq_statusField_iff_false (c : ℤ) (g : String)
    (hg : g.data.take 7 ≠ "status_".data) : (g = statusField c) = False := by
  simp only [eq_iff_iff, iff_false]
  exact fun h => statusField_ne c g hg h.symm

theorem statusField_eq_iff_false (c : ℤ) (g : String)
    (hg : g.data.take 7 ≠ "status_".data) : (statusField c = g) = False := by
  simp only [eq_iff_iff, iff_false]
  exact statusField_ne c g hg

/-! Field-by-field characterization of the three per-record updates. -/

theorem updateCounters_count (e : UsageData) (h : Hash) :
    updateCounters e h "count" = some ((h "count").getD 0 + 1) := by
  by_cases hrt : optTruthy e.responseTime <;>
    simp [updateCounters, hrt, hincr_apply, hset_apply, hsetnx_apply,
      eq_statusField_iff_false e.statusCode "count" (by decide)]

theorem updateCounters_first (e : UsageData) (h : Hash) :
    updateCounters e h "first_accessed" =
      if h "first_accessed" = none then some (e.timestamp : ℚ)
      else h "first_accessed" := by
  by_cases hrt : optTruthy e.responseTime <;>
    simp [updateCounters, hrt, hincr_apply, hset_apply, hsetnx_apply,
      eq_statusField_iff_false e.statusCode "first_accessed" (by decide)]

theorem updateCounters_last (e : UsageData) (h : Hash) :
    updateCounters e h "last_accessed" = some (e.timestamp : ℚ) := by
  by_cases hrt : optTruthy e.responseTime <;>
    simp [updateCounters, hrt, hincr_apply, hset_apply, hsetnx_apply,
      eq_statusField_iff_false e.statusCode "last_accessed" (by decide)]

theorem updateCounters_status (e : UsageData) (h : Hash) (c : ℤ) :
    updateCounters e h (statusField c) =
      if statusField c = statusField e.statusCode then
        some ((h (statusField c)).getD 0 + 1)
      else h (statusField c) := by
  by_cases hrt : optTruthy e.responseTime <;>
  by_cases hc : statusField c = statusField e.statusCode <;>
    simp [updateCounters, hrt, hc, hincr_apply, hset_apply, hsetnx_apply,
      statusField_eq_iff_false c "count" (by decide),
      statusField_eq_iff_false c "first_accessed" (by decide),
      statusField_eq_iff_false c "last_accessed" (by decide),
      statusField_eq_iff_false c "total_response_time" (by decide),
      statusField_eq_iff_false c "response_count" (by decide),
      statusField_eq_iff_false e.statusCode "count" (by decide),
      statusField_eq_iff_false e.statusCode "first_accessed" (by decide),
      statusField_eq_iff_false e.statusCode "last_accessed" (by decide),
      statusField_eq_iff_false e.statusCode "total_response_time" (by decide),
      statusField_eq_iff_false e.statusCode "response_count" (by decide),
      eq_statusField_iff_false e.statusCode "count" (by decide),
      eq_statusField_iff_false e.statusCode "first_accessed" (by decide),
      eq_statusField_iff_false e.statusCode "last_accessed" (by decide),
      eq_statusField_iff_false e.statusCode "total_response_time" (by decide),
      eq_statusField_iff_false e.statusCode "response_count" (by decide)]

theorem updateCounters_respCount (e : UsageData) (h : Hash) :
    updateCounters e h "response_count" =
      if optTruthy e.responseTime then some ((h "response_count").getD 0 + 1)
      else h "response_count" := by
  by_cases hrt : optTruthy e.responseTime <;>
    simp [updateCounters, hrt, hincr_apply, hset_apply, hsetnx_apply,
      eq_statusField_iff_false e.statusCode "response_count" (by decide)]

theorem updateCounters_respTotal (e : UsageData) (h : Hash) :
    updateCounters e h "total_response_time" =
      if optTruthy e.responseTime then
        some ((h "total_response_time").getD 0 + e.responseTime.getD 0)
      else h "total_response_time" := by
  by_cases hrt : optTruthy e.responseTime <;>
    simp [updateCounters, hrt, hincr_apply, hset_apply, hsetnx_apply,
      eq_statusField_iff_false e.statusCode "total_response_time" (by decide)]

theorem updateDailyStats_count (e : UsageData) (h : Hash) :
    updateDailyStats e h "count" = some ((h "count").getD 0 + 1) := by
  by_cases hrt : optTruthy e.responseTime <;>
    simp [updateDailyStats, hrt, hincr_apply, hset_apply, hsetnx_apply,
      eq_statusField_iff_false e.statusCode "count" (by decide)]

theorem updateDailyStats_first (e : UsageData) (h : Hash) :
    updateDailyStats e h "first_accessed" =
      if h "first_accessed" = none then some (e.timestamp : ℚ)
      else h "first_accessed" := by
  by_cases hrt : optTruthy e.responseTime <;>
    simp [updateDailyStats, hrt, hincr_apply, hset_apply, hsetnx_apply,
      eq_statusField_iff_false e.statusCode "first_accessed" (by decide)]

theorem updateDailyStats_last (e : UsageData) (h : Hash) :
    updateDailyStats e h "last_accessed" = some (e.timestamp : ℚ) := by
  by_cases hrt : optTruthy e.responseTime <;>
    simp [updateDailyStats, hrt, hincr_apply, hset_apply, hsetnx_apply,
      eq_statusField_iff_false e.statusCode "last_accessed" (by decide)]

theorem updateDailyStats_status (e : UsageData) (h : Hash) (c : ℤ) :
    updateDailyStats e h (statusField c) =
      if statusField c = statusField e.statusCode then
        some ((h (statusField c)).getD 0 + 1)
      else h (statusField c) := by
  by_cases hrt : optTruthy e.responseTime <;>
  by_cases hc : statusField c = statusField e.statusCode <;>
    simp [updateDailyStats, hrt, hc, hincr_apply, hset_apply, hsetnx_apply,
      statusField_eq_iff_false c "count" (by decide),
      statusField_eq_iff_false c "first_accessed" (by decide),
      statusField_eq_iff_false c "last_accessed" (by decide),
      statusField_eq_iff_false c "total_response_time" (by decide),
      statusField_eq_iff_false c "response_count" (by decide),
      statusField_eq_iff_false e.statusCode "count" (by decide),
      statusField_eq_iff_false e.statusCode "first_accessed" (by decide),
      statusField_eq_iff_false e.statusCode "last_accessed" (by decide),
      statusField_eq_iff_false e.statusCode "total_response_time" (by decide),
      statusField_eq_iff_false e.statusCode "response_count" (by decide),
      eq_statusField_iff_false e.statusCode "count" (by decide),
      eq_statusField_iff_false e.statusCode "first_accessed" (by decide),
      eq_statusField_iff_false e.statusCode "last_accessed" (by decide),
      eq_statusField_iff_false e.statusCode "total_response_time" (by decide),
      eq_statusField_iff_false e.statusCode "response_count" (by decide)]

theorem updateDailyStats_respCount (e : UsageData) (h : Hash) :
    updateDailyStats e h "response_count" =
      if optTruthy e.responseTime then some ((h "response_count").getD 0 + 1)
      else h "response_count" := by
  by_cases hrt : optTruthy e.responseTime <;>
    simp [updateDailyStats, hrt, hincr_apply, hset_apply, hsetnx_apply,
      eq_statusField_iff_false e.statusCode "response_count" (by decide)]

theorem updateDailyStats_respTotal (e : UsageData) (h : Hash) :
    updateDailyStats e h "total_response_time" =
      if optTruthy e.responseTime then
        some ((h "total_response_time").getD 0 + e.responseTime.getD 0)
      else h "total_response_time" := by
  by_cases hrt : optTruthy e.responseTime <;>
    simp [updateDailyStats, hrt, hincr_apply, hset_apply, hsetnx_apply,
      eq_statusField_iff_false e.statusCode "total_response_time" (by decide)]

theorem updatePerf_totalRequests (slowT : ℚ) (e : UsageData) (r : PerfRec) :
    (updatePerformanceStats slowT e r).h "total_requests" =
      some ((r.h "total_requests").getD 0 + 1) := by
  by_cases h1 : optTruthy e.responseTime <;>
  by_cases h2 : e.responseTime.getD 0 > slowT <;>
  by_cases h3 : e.statusCode ≥ 400 <;>
  by_cases h4 : optTruthy e.memoryUsage <;>
  by_cases h5 : optTruthy e.cpuUsage <;>
    simp [updatePerformanceStats, h1, h2, h3, h4, h5,
      hincr_apply, hset_apply, hsetnx_apply]

theorem updatePerf_first (slowT : ℚ) (e : UsageData) (r : PerfRec) :
    (updatePerformanceStats slowT e r).h "first_accessed" =
      if r.h "first_accessed" = none then some (e.timestamp : ℚ)
      else r.h "first_accessed" := by
  by_cases h1 : optTruthy e.responseTime <;>
  by_cases h2 : e.responseTime.getD 0 > slowT <;>
  by_cases h3 : e.statusCode ≥ 400 <;>
  by_cases h4 : optTruthy e.memoryUsage <;>
  by_cases h5 : optTruthy e.cpuUsage <;>
    simp [updatePerformanceStats, h1, h2, h3, h4, h5,
      hincr_apply, hset_apply, hsetnx_apply]

theorem updatePerf_last (slowT : ℚ) (e : UsageData) (r : PerfRec) :
    (updatePerformanceStats slowT e r).h "last_accessed" = some (e.timestamp : ℚ) := by
  by_cases h1 : optTruthy e.responseTime <;>
  by_cases h2 : e.responseTime.getD 0 > slowT <;>
  by_cases h3 : e.statusCode ≥ 400 <;>
  by_cases h4 : optTruthy e.memoryUsage <;>
  by_cases h5 : optTruthy e.cpuUsage <;>
    simp [updatePerformanceStats, h1, h2, h3, h4, h5,
      hincr_apply, hset_apply, hsetnx_apply]

theorem updatePerf_respTotal (slowT : ℚ) (e : UsageData) (r : PerfRec) :
    (updatePerformanceStats slowT e r).h "total_response_time" =
      if optTruthy e.responseTime then
        some ((r.h "total_response_time").getD 0 + e.responseTime.getD 0)
      else r.h "total_response_time" := by
  by_cases h1 : optTruthy e.responseTime <;>
  by_cases h2 : e.responseTime.getD 0 > slowT <;>
  by_cases h3 : e.statusCode ≥ 400 <;>
  by_cases h4 : optTruthy e.memoryUsage <;>
  by_cases h5 : optTruthy e.cpuUsage <;>
    simp [updatePerformanceStats, h1, h2, h3, h4, h5,
      hincr_apply, hset_apply, hsetnx_apply]

theorem updatePerf_respCount (slowT : ℚ) (e : UsageData) (r : PerfRec) :
    (updatePerformanceStats slowT e r).h "response_count" =
      if optTruthy e.responseTime then some ((r.h "response_count").getD 0 + 1)
      else r.h "response_count" := by
  by_cases h1 : optTruthy e.responseTime <;>
  by_cases h2 : e.responseTime.getD 0 > slowT <;>
  by_cases h3 : e.statusCode ≥ 400 <;>
  by_cases h4 : optTruthy e.memoryUsage <;>
  by_cases h5 : optTruthy e.cpuUsage <;>
    simp [updatePerformanceStats, h1, h2, h3, h4, h5,
      hincr_apply, hset_apply, hsetnx_apply]

theorem updatePerf_slow (slowT : ℚ) (e : UsageData) (r : PerfRec) :
    (updatePerformanceStats slowT e r).h "slow_requests" =
      if optTruthy e.responseTime ∧ e.responseTime.getD 0 > slowT then
        some ((r.h "slow_requests").getD 0 + 1)
      else r.h "slow_requests" := by
  by_cases h1 : optTruthy e.responseTime <;>
  by_cases h2 : e.responseTime.getD 0 > slowT <;>
  by_cases h3 : e.statusCode ≥ 400 <;>
  by_cases h4 : optTruthy e.memoryUsage <;>
  by_cases h5 : optTruthy e.cpuUsage <;>
    simp [updatePerformanceStats, h1, h2, h3, h4, h5,
      hincr_apply, hset_apply, hsetnx_apply]

theorem updatePerf_error (slowT : ℚ) (e : UsageData) (r : PerfRec) :
    (updatePerformanceStats slowT e r).h "error_requests" =
      if e.statusCode ≥ 400 then some ((r.h "error_requests").getD 0 + 1)
      else r.h "error_requests" := by
  by_cases h1 : optTruthy e.responseTime <;>
  by_cases h2 : e.responseTime.getD 0 > slowT <;>
  by_cases h3 : e.statusCode ≥ 400 <;>
  by_cases h4 : optTruthy e.memoryUsage <;>
  by_cases h5 : optTruthy e.cpuUsage <;>
    simp [updatePerformanceStats, h1, h2, h3, h4, h5,
      hincr_apply, hset_apply, hsetnx_apply]

theorem updatePerf_memTotal (slowT : ℚ) (e : UsageData) (r : PerfRec) :
    (updatePerformanceStats slowT e r).h "total_memory" =
      if optTruthy e.memoryUsage then
        some ((r.h "total_memory").getD 0 + e.memoryUsage.getD 0)
      else r.h "total_memory" := by
  by_cases h1 : optTruthy e.responseTime <;>
  by_cases h2 : e.responseTime.getD 0 > slowT <;>
  by_cases h3 : e.statusCode ≥ 400 <;>
  by_cases h4 : optTruthy e.memoryUsage <;>
  by_cases h5 : optTruthy e.cpuUsage <;>
    simp [updatePerformanceStats, h1, h2, h3, h4, h5,
      hincr_apply, hset_apply, hsetnx_apply]

theorem updatePerf_memCount (slowT : ℚ) (e : UsageData) (r : PerfRec) :
    (updatePerformanceStats slowT e r).h "memory_count" =
      if optTruthy e.memoryUsage then some ((r.h "memory_count").getD 0 + 1)
      else r.h "memory_count" := by
  by_cases h1 : optTruthy e.responseTime <;>
  by_cases h2 : e.responseTime.getD 0 > slowT <;>
  by_cases h3 : e.statusCode ≥ 400 <;>
  by_cases h4 : optTruthy e.memoryUsage <;>
  by_cases h5 : optTruthy e.cpuUsage <;>
    simp [updatePerformanceStats, h1, h2, h3, h4, h5,
      hincr_apply, hset_apply, hsetnx_apply]

theorem updatePerf_cpuTotal (slowT : ℚ) (e : UsageData) (r : PerfRec) :
    (updatePerformanceStats slowT e r).h "total_cpu" =
      if optTruthy e.cpuUsage then
        some ((r.h "total_cpu").getD 0 + e.cpuUsage.getD 0)
      else r.h "total_cpu" := by
  by_cases h1 : optTruthy e.responseTime <;>
  by_cases h2 : e.responseTime.getD 0 > slowT <;>
  by_cases h3 : e.statusCode ≥ 400 <;>
  by_cases h4 : optTruthy e.memoryUsage <;>
  by_cases h5 : optTruthy e.cpuUsage <;>
    simp [updatePerformanceStats, h1, h2, h3, h4, h5,
      hincr_apply, hset_apply, hsetnx_apply]

theorem updatePerf_cpuCount (slowT : ℚ) (e : UsageData) (r : PerfRec) :
    (updatePerformanceStats slowT e r).h "cpu_count" =
      if optTruthy e.cpuUsage then some ((r.h "cpu_count").getD 0 + 1)
      else r.h "cpu_count" := by
  by_cases h1 : optTruthy e.responseTime <;>
  by_cases h2 : e.responseTime.getD 0 > slowT <;>
  by_cases h3 : e.statusCode ≥ 400 <;>
  by_cases h4 : optTruthy e.memoryUsage <;>
  by_cases h5 : optTruthy e.cpuUsage <;>
    simp [updatePerformanceStats, h1, h2, h3, h4, h5,
      hincr_apply, hset_apply, hsetnx_apply]

theorem updatePerf_avgField (slowT : ℚ) (e : UsageData) (r : PerfRec) :
    (updatePerformanceStats slowT e r).h "avg_response_time" =
      r.h "avg_response_time" := by
  by_cases h1 : optTruthy e.responseTime <;>
  by_cases h2 : e.responseTime.getD 0 > slowT <;>
  by_cases h3 : e.statusCode ≥ 400 <;>
  by_cases h4 : optTruthy e.memoryUsage <;>
  by_cases h5 : optTruthy e.cpuUsage <;>
    simp [updatePerformanceStats, h1, h2, h3, h4, h5,
      hincr_apply, hset_apply, hsetnx_apply]

theorem updatePerf_throughputField (slowT : ℚ) (e : UsageData) (r : PerfRec) :
    (updatePerformanceStats slowT e r).h "throughput" = r.h "throughput" := by
  by_cases h1 : optTruthy e.responseTime <;>
  by_cases h2 : e.responseTime.getD 0 > slowT <;>
  by_cases h3 : e.statusCode ≥ 400 <;>
  by_cases h4 : optTruthy e.memoryUsage <;>
  by_cases h5 : optTruthy e.cpuUsage <;>
    simp [updatePerformanceStats, h1, h2, h3, h4, h5,
      hincr_apply, hset_apply, hsetnx_apply]

theorem updatePerf_buckets (slowT : ℚ) (e : UsageData) (r : PerfRec) :
    (updatePerformanceStats slowT e r).buckets =
      cleanupOldThroughputData e.timestamp
        (bumpBucket (minuteKey e.timestamp) r.buckets) := rfl

/-- C7: at every step of every sequence of `trackUsage` calls on one
endpoint key — i.e. for every reachable record state and every event — in
each of the three aggregate families (`global`, `daily`, `performance`):
`first_accessed` is written only when absent, so it never changes once set;
`last_accessed` becomes `max(previous value, event timestamp)` (the code
stores the event timestamp unconditionally, and `trackUsage` stamps events
with `Date.now()`, so the previous value never exceeds the event timestamp
— the hypothesis of those conjuncts); and `count` and every counter field
(`status_*`, `response_count`, `total_requests`, `slow_requests`,
`error_requests`, `memory_count`, `cpu_count`) are monotonically
non-decreasing. -/
theorem c7_set_once_last_max_counters_monotone
    (e : UsageData) (h : Hash) (r : PerfRec) (slowT : ℚ) :
    (∀ t : ℚ, h "first_accessed" = some t →
        updateCounters e h "first_accessed" = some t)
    ∧ (∀ t : ℚ, h "last_accessed" = some t → t ≤ (e.timestamp : ℚ) →
        updateCounters e h "last_accessed" = some (max t (e.timestamp : ℚ)))
    ∧ (h "count").getD 0 ≤ (updateCounters e h "count").getD 0
    ∧ (∀ c : ℤ, (h (statusField c)).getD 0 ≤
        (updateCounters e h (statusField c)).getD 0)
    ∧ (h "response_count").getD 0 ≤ (updateCounters e h "response_count").getD 0
    ∧ (∀ t : ℚ, h "first_accessed" = some t →
        updateDailyStats e h "first_accessed" = some t)
    ∧ (∀ t : ℚ, h "last_accessed" = some t → t ≤ (e.timestamp : ℚ) →
        updateDailyStats e h "last_accessed" = some (max t (e.timestamp : ℚ)))
    ∧ (h "count").getD 0 ≤ (updateDailyStats e h "count").getD 0
    ∧ (∀ c : ℤ, (h (statusField c)).getD 0 ≤
        (updateDailyStats e h (statusField c)).getD 0)
    ∧ (h "response_count").getD 0 ≤ (updateDailyStats e h "response_count").getD 0
    ∧ (∀ t : ℚ, r.h "first_accessed" = some t →
        (updatePerformanceStats slowT e r).h "first_accessed" = some t)
    ∧ (∀ t : ℚ, r.h "last_accessed" = some t → t ≤ (e.timestamp : ℚ) →
        (updatePerformanceStats slowT e r).h "last_accessed" =
          some (max t (e.timestamp : ℚ)))
    ∧ (r.h "total_requests").getD 0 ≤
        ((updatePerformanceStats slowT e r).h "total_requests").getD 0
    ∧ (r.h "slow_requests").getD 0 ≤
        ((updatePerformanceStats slowT e r).h "slow_requests").getD 0
    ∧ (r.h "error_requests").getD 0 ≤
        ((updatePerformanceStats slowT e r).h "error_requests").getD 0
    ∧ (r.h "response_count").getD 0 ≤
        ((updatePerformanceStats slowT e r).h "response_count").getD 0
    ∧ (r.h "memory_count").getD 0 ≤
        ((updatePerformanceStats slowT e r).h "memory_count").getD 0
    ∧ (r.h "cpu_count").getD 0 ≤
        ((updatePerformanceStats slowT e r).h "cpu_count").getD 0 := by
  refine ⟨?_, ?_, ?_, ?_, ?_, ?_, ?_, ?_, ?_, ?_, ?_, ?_, ?_, ?_, ?_, ?_, ?_, ?_⟩
  · intro t ht
    rw [updateCounters_first, ht]
    simp
  · intro t _ hle
    rw [updateCounters_last, max_eq_right hle]
  · rw [updateCounters_count]
    simp
  · intro c
    rw [updateCounters_status]
    split
    · simp
    · exact le_refl _
  · rw [updateCounters_respCount]
    split
    · simp
    · exact le_refl _
  · intro t ht
    rw [updateDailyStats_first, ht]
    simp
  · intro t _ hle
    rw [updateDailyStats_last, max_eq_right hle]
  · rw [updateDailyStats_count]
    simp
  · intro c
    rw [updateDailyStats_status]
    split
    · simp
    · exact le_refl _
  · rw [updateDailyStats_respCount]
    split
    · simp
    · exact le_refl _
  · intro t ht
    rw [updatePerf_first, ht]
    simp
  · intro t _ hle
    rw [updatePerf_last, max_eq_right hle]
  · rw [updatePerf_totalRequests]
    simp
  · rw [updatePerf_slow]
    split
    · simp
    · exact le_refl _
  · rw [updatePerf_error]
    split
    · simp
    · exact le_refl _
  · rw [updatePerf_respCount]
    split
    · simp
    · exact le_refl _
  · rw [updatePerf_memCount]
    split
    · simp
    · exact le_refl _
  · rw [updatePerf_cpuCount]
    split
    · simp
    · exact le_refl _

/-- Witness for C7 at a concrete record state and event. -/
theorem c7_set_once_last_max_counters_monotone_witness :
    updateCounters ⟨10, 200, some 5, some 3, some 2⟩
      (hset (hset emptyHash "first_accessed" 1) "last_accessed" 2)
      "first_accessed" = some 1
    ∧ updateCounters ⟨10, 200, some 5, some 3, some 2⟩
      (hset (hset emptyHash "first_accessed" 1) "last_accessed" 2)
      "last_accessed" = some (max 2 ((10 : ℤ) : ℚ))
    ∧ updateDailyStats ⟨10, 200, some 5, some 3, some 2⟩
      (hset (hset emptyHash "first_accessed" 1) "last_accessed" 2)
      "first_accessed" = some 1
    ∧ updateDailyStats ⟨10, 200, some 5, some 3, some 2⟩
      (hset (hset emptyHash "first_accessed" 1) "last_accessed" 2)
      "last_accessed" = some (max 2 ((10 : ℤ) : ℚ))
    ∧ (updatePerformanceStats 1000 ⟨10, 200, some 5, some 3, some 2⟩
      ⟨hset (hset emptyHash "first_accessed" 1) "last_accessed" 2, []⟩).h
      "first_accessed" = some 1
    ∧ (updatePerformanceStats 1000 ⟨10, 200, some 5, some 3, some 2⟩
      ⟨hset (hset emptyHash "first_accessed" 1) "last_accessed" 2, []⟩).h
      "last_accessed" = some (max 2 ((10 : ℤ) : ℚ))
    ∧ ((hset (hset emptyHash "first_accessed" 1) "last_accessed" 2 : Hash)
        "count").getD 0 ≤
      (updateCounters ⟨10, 200, some 5, some 3, some 2⟩
        (hset (hset emptyHash "first_accessed" 1) "last_accessed" 2) "count").getD 0
    ∧ ((hset (hset emptyHash "first_accessed" 1) "last_accessed" 2 : Hash)
        "count").getD 0 ≤
      (updateDailyStats ⟨10, 200, some 5, some 3, some 2⟩
        (hset (hset emptyHash "first_accessed" 1) "last_accessed" 2) "count").getD 0
    ∧ ((hset (hset emptyHash "first_accessed" 1) "last_accessed" 2 : Hash)
        "total_requests").getD 0 ≤
      ((updatePerformanceStats 1000 ⟨10, 200, some 5, some 3, some 2⟩
        ⟨hset (hset emptyHash "first_accessed" 1) "last_accessed" 2, []⟩).h
        "total_requests").getD 0 := by
  obtain ⟨p1, p2, p3, p4, p5, p6, p7, p8, p9, p10, p11, p12, p13, p14, p15, p16, p17, p18⟩ :=
    c7_set_once_last_max_counters_monotone ⟨10, 200, some 5, some 3, some 2⟩
      (hset (hset emptyHash "first_accessed" 1) "last_accessed" 2)
      ⟨hset (hset emptyHash "first_accessed" 1) "last_accessed" 2, []⟩ 1000
  refine ⟨p1 1 ?_, p2 2 ?_ ?_, p6 1 ?_, p7 2 ?_ ?_, p11 1 ?_, p12 2 ?_ ?_, p3, p8, p13⟩
  all_goals norm_num [hset, emptyHash]
  all_goals decide

/-- C10: an event whose `responseTime` is 0 is treated exactly like one with
no response time at all, in all three aggregate families: the JS truthiness
test `if (data.responseTime)` skips the response-time accumulation
(`total_response_time`, `response_count`) and the slow-request check; the
same falsy test on `memoryUsage = 0` and `cpuUsage = 0` skips the memory
and CPU sample accumulation in the performance family. -/
theorem c10_zero_samples_not_accumulated
    (e : UsageData) (h : Hash) (r : PerfRec) (slowT : ℚ)
    (hrt : e.responseTime = some 0) (hm : e.memoryUsage = some 0)
    (hcpu : e.cpuUsage = some 0) :
    updateCounters e h "total_response_time" = h "total_response_time"
    ∧ updateCounters e h "response_count" = h "response_count"
    ∧ updateDailyStats e h "total_response_time" = h "total_response_time"
    ∧ updateDailyStats e h "response_count" = h "response_count"
    ∧ (updatePerformanceStats slowT e r).h "total_response_time" =
        r.h "total_response_time"
    ∧ (updatePerformanceStats slowT e r).h "response_count" = r.h "response_count"
    ∧ (updatePerformanceStats slowT e r).h "slow_requests" = r.h "slow_requests"
    ∧ (updatePerformanceStats slowT e r).h "total_memory" = r.h "total_memory"
    ∧ (updatePerformanceStats slowT e r).h "memory_count" = r.h "memory_count"
    ∧ (updatePerformanceStats slowT e r).h "total_cpu" = r.h "total_cpu"
    ∧ (updatePerformanceStats slowT e r).h "cpu_count" = r.h "cpu_count" := by
  have h1 : optTruthy e.responseTime = false := by
    rw [hrt]
    simp [optTruthy]
  have h2 : optTruthy e.memoryUsage = false := by
    rw [hm]
    simp [optTruthy]
  have h3 : optTruthy e.cpuUsage = false := by
    rw [hcpu]
    simp [optTruthy]
  refine ⟨?_, ?_, ?_, ?_, ?_, ?_, ?_, ?_, ?_, ?_, ?_⟩
  · rw [updateCounters_respTotal]
    simp [h1]
  · rw [updateCounters_respCount]
    simp [h1]
  · rw [updateDailyStats_respTotal]
    simp [h1]
  · rw [updateDailyStats_respCount]
    simp [h1]
  · rw [updatePerf_respTotal]
    simp [h1]
  · rw [updatePerf_respCount]
    simp [h1]
  · rw [updatePerf_slow]
    simp [h1]
  · rw [updatePerf_memTotal]
    simp [h2]
  · rw [updatePerf_memCount]
    simp [h2]
  · rw [updatePerf_cpuTotal]
    simp [h3]
  · rw [updatePerf_cpuCount]
    simp [h3]

/-- Witness for C10 at a concrete all-zero-samples event. -/
theorem c10_zero_samples_not_accumulated_witness :
    (⟨0, 200, some 0, some 0, some 0⟩ : UsageData).responseTime = some 0
    ∧ updateCounters ⟨0, 200, some 0, some 0, some 0⟩ emptyHash
        "total_response_time" = emptyHash "total_response_time"
    ∧ updateCounters ⟨0, 200, some 0, some 0, some 0⟩ emptyHash
        "response_count" = emptyHash "response_count"
    ∧ updateDailyStats ⟨0, 200, some 0, some 0, some 0⟩ emptyHash
        "total_response_time" = emptyHash "total_response_time"
    ∧ updateDailyStats ⟨0, 200, some 0, some 0, some 0⟩ emptyHash
        "response_count" = emptyHash "response_count"
    ∧ (updatePerformanceStats 1000 ⟨0, 200, some 0, some 0, some 0⟩ emptyPerf).h
        "total_response_time" = emptyPerf.h "total_response_time"
    ∧ (updatePerformanceStats 1000 ⟨0, 200, some 0, some 0, some 0⟩ emptyPerf).h
        "response_count" = emptyPerf.h "response_count"
    ∧ (updatePerformanceStats 1000 ⟨0, 200, some 0, some 0, some 0⟩ emptyPerf).h
        "slow_requests" = emptyPerf.h "slow_requests"
    ∧ (updatePerformanceStats 1000 ⟨0, 200, some 0, some 0, some 0⟩ emptyPerf).h
        "total_memory" = emptyPerf.h "total_memory"
    ∧ (updatePerformanceStats 1000 ⟨0, 200, some 0, some 0, some 0⟩ emptyPerf).h
        "memory_count" = emptyPerf.h "memory_count"
    ∧ (updatePerformanceStats 1000 ⟨0, 200, some 0, some 0, some 0⟩ emptyPerf).h
        "total_cpu" = emptyPerf.h "total_cpu"
    ∧ (updatePerformanceStats 1000 ⟨0, 200, some 0, some 0, some 0⟩ emptyPerf).h
        "cpu_count" = emptyPerf.h "cpu_count" := by
  obtain ⟨q1, q2, q3, q4, q5, q6, q7, q8, q9, q10, q11⟩ :=
    c10_zero_samples_not_accumulated ⟨0, 200, some 0, some 0, some 0⟩
      emptyHash emptyPerf 1000 rfl rfl rfl
  exact ⟨rfl, q1, q2, q3, q4, q5, q6, q7, q8, q9, q10, q11⟩

/-- Helper for C1: no update ever writes the hash field `avg_response_time`,
so it stays untouched across any sequence of performance updates. -/
theorem avgField_foldl (es : List UsageData) (slowT : ℚ) (r : PerfRec) :
    (es.foldl (fun r e => updatePerformanceStats slowT e r) r).h
      "avg_response_time" = r.h "avg_response_time" := by
  induction es generalizing r with
  | nil => rfl
  | cons e t ih => rw [List.foldl_cons, ih, updatePerf_avgField]

/-- Counterexample to C1: after one tracked event with response time 100 ms,
the performance record holds `total_response_time = 100` and
`response_count = 1`, yet the `averageResponseTime` returned by
`getPerformanceStats` is 0 — not `totalResponseTime / responseSampleCount`
= 100 — because it reads the never-written hash field `avg_response_time`. -/
theorem c1_counterexample :
    ((updatePerformanceStats 1000 ⟨0, 200, some 100, none, none⟩ emptyPerf).h
      "total_response_time").getD 0 = 100
    ∧ ((updatePerformanceStats 1000 ⟨0, 200, some 100, none, none⟩ emptyPerf).h
      "response_count").getD 0 = 1
    ∧ perfStatsAvgResponseTime
        (updatePerformanceStats 1000 ⟨0, 200, some 100, none, none⟩ emptyPerf) = 0
    ∧ perfStatsAvgResponseTime
        (updatePerformanceStats 1000 ⟨0, 200, some 100, none, none⟩ emptyPerf) ≠
      ((updatePerformanceStats 1000 ⟨0, 200, some 100, none, none⟩ emptyPerf).h
        "total_response_time").getD 0 /
      ((updatePerformanceStats 1000 ⟨0, 200, some 100, none, none⟩ emptyPerf).h
        "response_count").getD 0 := by
  refine ⟨?_, ?_, ?_, ?_⟩
  · rw [updatePerf_respTotal]
    norm_num [optTruthy, emptyPerf, emptyHash]
  · rw [updatePerf_respCount]
    norm_num [optTruthy, emptyPerf, emptyHash]
  · unfold perfStatsAvgResponseTime
    rw [updatePerf_avgField]
    norm_num [emptyPerf, emptyHash]
  · unfold perfStatsAvgResponseTime
    rw [updatePerf_avgField, updatePerf_respTotal, updatePerf_respCount]
    norm_num [optTruthy, emptyPerf, emptyHash]

/-- C1 amended: the `averageResponseTime` of `getEndpointStats` is
`totalResponseTime / responseSampleCount` when the record has at least one
response-time sample, and `undefined` (not 0) when it has none; the
`averageResponseTime` of `getPerformanceStats` is read from the hash field
`avg_response_time`, which no writer ever sets, and is therefore always 0
regardless of the accumulated totals. -/
theorem c1_amended (es : List UsageData) (slowT : ℚ) (h : Hash) (ep : List Char) :
    perfStatsAvgResponseTime
      (es.foldl (fun r e => updatePerformanceStats slowT e r) emptyPerf) = 0
    ∧ ((h "response_count").getD 0 > 0 →
        (statsOfGlobalRec ep h).averageResponseTime =
          some ((h "total_response_time").getD 0 / (h "response_count").getD 0))
    ∧ (¬ (h "response_count").getD 0 > 0 →
        (statsOfGlobalRec ep h).averageResponseTime = none) := by
  refine ⟨?_, ?_, ?_⟩
  · unfold perfStatsAvgResponseTime
    rw [avgField_foldl]
    simp [emptyPerf, emptyHash]
  · intro hpos
    simp [statsOfGlobalRec, hpos]
  · intro hneg
    simp [statsOfGlobalRec, hneg]

/-- Witness for C1 amended, at one concrete event sequence and two concrete
global hashes (one with samples, one without). -/
theorem c1_amended_witness :
    perfStatsAvgResponseTime
      (List.foldl (fun r e => updatePerformanceStats 1000 e r) emptyPerf
        [⟨0, 200, some 100, none, none⟩]) = 0
    ∧ ((hset (hset emptyHash "total_response_time" 100) "response_count" 2 : Hash)
        "response_count").getD 0 > 0
    ∧ (statsOfGlobalRec []
        (hset (hset emptyHash "total_response_time" 100) "response_count" 2)).averageResponseTime =
      some (((hset (hset emptyHash "total_response_time" 100) "response_count" 2 : Hash)
          "total_response_time").getD 0 /
        ((hset (hset emptyHash "total_response_time" 100) "response_count" 2 : Hash)
          "response_count").getD 0)
    ∧ ¬ ((emptyHash "response_count").getD 0 > 0)
    ∧ (statsOfGlobalRec [] emptyHash).averageResponseTime = none := by
  have hpos : ((hset (hset emptyHash "total_response_time" 100) "response_count" 2 : Hash)
      "response_count").getD 0 > 0 := by
    norm_num [hset, emptyHash]
  have hneg : ¬ ((emptyHash "response_count").getD 0 > 0) := by
    norm_num [emptyHash]
  exact ⟨(c1_amended [⟨0, 200, some 100, none, none⟩] 1000 emptyHash []).1,
    hpos,
    (c1_amended [] 1000
      (hset (hset emptyHash "total_response_time" 100) "response_count" 2) []).2.1 hpos,
    hneg,
    (c1_amended [] 1000 emptyHash []).2.2 hneg⟩

/-- C2 evaluated at the failing input: after one tracked event at timestamp
0, the only retained throughput bucket (minute 0) holds 1, so the sum of
the retained bucket values is 1; yet the `throughput` that
`getPerformanceStats` returns is 0, because it reads the literal hash field
`throughput`, which no writer ever sets — the maintained and pruned
`throughput_{minute}` buckets are never aggregated. -/
theorem c2_throughput_reads_unwritten_field :
    (updatePerformanceStats 1000 ⟨0, 200, some 100, none, none⟩ emptyPerf).buckets
      = [(0, 1)]
    ∧ bucketSum
        (updatePerformanceStats 1000 ⟨0, 200, some 100, none, none⟩ emptyPerf) = 1
    ∧ (perfMetricsOfRec [100]
        (updatePerformanceStats 1000 ⟨0, 200, some 100, none, none⟩
          emptyPerf)).throughput = 0
    ∧ (1 : ℚ) ≠ 0 := by
  have hmk : minuteKey 0 = 0 := by
    norm_num [minuteKey]
  have hb : (updatePerformanceStats 1000 ⟨0, 200, some 100, none, none⟩
      emptyPerf).buckets = [(0, 1)] := by
    rw [updatePerf_buckets, hmk]
    norm_num [emptyPerf, bumpBucket, cleanupOldThroughputData]
  refine ⟨hb, ?_, ?_, by norm_num⟩
  · unfold bucketSum
    rw [hb]
    norm_num
  · show ((updatePerformanceStats 1000 ⟨0, 200, some 100, none, none⟩
      emptyPerf).h "throughput").getD 0 = 0
    rw [updatePerf_throughputField]
    norm_num [emptyPerf, emptyHash]

/-- Counterexample to C3: with zero discovered routes — `total = 0`, hence
`unused = 0` — `generateReport`'s `unusedPercentage` is
`Math.round((0 / 0) * 100)` = NaN, not the number 0. -/
theorem c3_counterexample :
    unusedPercentage 0 0 = JsNum.nan ∧ JsNum.nan ≠ JsNum.fin 0 := by
  constructor
  · simp [unusedPercentage, jsDiv, jsMul, jsRound]
  · simp

/-- C3 amended: `unusedPercentage` equals `round(unused/total × 100)` (half
rounded towards positive infinity) whenever `totalCount > 0`; when
`totalCount = 0` — and hence `unusedCount = 0`, unused routes being a
subset of all routes — the result is NaN (JS `0/0`), not 0, though no
error is thrown. -/
theorem c3_amended (u t : ℕ) :
    (t ≠ 0 →
      unusedPercentage u t = JsNum.fin ⌊(u : ℚ) / (t : ℚ) * 100 + 1 / 2⌋)
    ∧ (t = 0 → u = 0 → unusedPercentage u t = JsNum.nan) := by
  constructor
  · intro ht
    have ht2 : ((t : ℚ)) ≠ 0 := Nat.cast_ne_zero.mpr ht
    simp [unusedPercentage, jsDiv, jsMul, jsRound, ht2]
  · rintro rfl rfl
    simp [unusedPercentage, jsDiv, jsMul, jsRound]

/-- Witness for C3 amended: 1 unused of 4 routes gives 25%; 0 of 0 gives
NaN. -/
theorem c3_amended_witness :
    (4 ≠ 0)
    ∧ unusedPercentage 1 4 = JsNum.fin ⌊(1 : ℚ) / (4 : ℚ) * 100 + 1 / 2⌋
    ∧ ((0 : ℕ) = 0)
    ∧ unusedPercentage 0 0 = JsNum.nan :=
  ⟨by norm_num, (c3_amended 1 4).1 (by norm_num), rfl, (c3_amended 0 0).2 rfl rfl⟩

/-- C8: a tick whose generated report has an empty `unusedEndpoints` list
dispatches nothing: no webhook, Slack or email delivery is attempted and no
HTML report is produced, whatever channels are configured —
`generateAndSendReport` returns before `sendNotifications` and
`generateHtmlReport`. -/
theorem c8_empty_report_suppressed (cfg : NotifCfg) (report : ReportM)
    (hempty : report.unusedEndpoints = []) :
    generateAndSendReport cfg report = noActions := by
  unfold generateAndSendReport
  rw [hempty]
  simp

/-- Witness for C8 with every channel configured. -/
theorem c8_empty_report_suppressed_witness :
    (⟨[]⟩ : ReportM).unusedEndpoints = []
    ∧ generateAndSendReport ⟨true, true, true, true⟩ ⟨[]⟩ = noActions :=
  ⟨rfl, c8_empty_report_suppressed ⟨true, true, true, true⟩ ⟨[]⟩ rfl⟩

/-- C6: `getUnusedEndpoints(daysThreshold)` returns exactly the stats whose
`lastAccessed` is strictly before `now` minus `daysThreshold` days; a stat
whose `lastAccessed` equals the threshold instant exactly is not included,
and one last accessed `daysThreshold + 1` days ago is. -/
theorem c6_unused_strict_threshold (now d : ℤ) (recs : List (List Char × Hash))
    (s : EndpointStatsM) :
    (s ∈ getUnusedEndpoints now d recs ↔
      s ∈ getEndpointStats recs ∧
        s.lastAccessed < (now : ℚ) - (d : ℚ) * 86400000)
    ∧ (s.lastAccessed = (now : ℚ) - (d : ℚ) * 86400000 →
        s ∉ getUnusedEndpoints now d recs)
    ∧ (s ∈ getEndpointStats recs →
        s.lastAccessed = (now : ℚ) - ((d : ℚ) + 1) * 86400000 →
        s ∈ getUnusedEndpoints now d recs) := by
  have hmem : ∀ x : EndpointStatsM, x ∈ getUnusedEndpoints now d recs ↔
      x ∈ getEndpointStats recs ∧
        x.lastAccessed < (now : ℚ) - (d : ℚ) * 86400000 := by
    intro x
    unfold getUnusedEndpoints
    rw [List.mem_filter]
    simp
  refine ⟨hmem s, ?_, ?_⟩
  · intro heq hin
    rw [hmem s] at hin
    rw [heq] at hin
    exact lt_irrefl _ hin.2
  · intro hs heq
    rw [hmem s]
    refine ⟨hs, ?_⟩
    rw [heq]
    nlinarith [sq_nonneg ((1 : ℚ))]

/-- Witness for C6: with one record last accessed at 0 ms, threshold 1 day
and now = 2 days, the record (exactly `daysThreshold + 1` days old) is
reported unused; a stat last accessed exactly at the 1-day threshold is
not. -/
theorem c6_unused_strict_threshold_witness :
    statsOfGlobalRec ("GET:/a".toList) (hset emptyHash "last_accessed" 0) ∈
      getEndpointStats [("GET:/a".toList, hset emptyHash "last_accessed" 0)]
    ∧ (statsOfGlobalRec ("GET:/a".toList)
        (hset emptyHash "last_accessed" 0)).lastAccessed =
      ((2 * 86400000 : ℤ) : ℚ) - (((1 : ℤ) : ℚ) + 1) * 86400000
    ∧ statsOfGlobalRec ("GET:/a".toList) (hset emptyHash "last_accessed" 0) ∈
        getUnusedEndpoints (2 * 86400000) 1
          [("GET:/a".toList, hset emptyHash "last_accessed" 0)]
    ∧ (statsOfGlobalRec ("GET:/a".toList)
        (hset emptyHash "last_accessed" 86400000)).lastAccessed =
      ((2 * 86400000 : ℤ) : ℚ) - ((1 : ℤ) : ℚ) * 86400000
    ∧ statsOfGlobalRec ("GET:/a".toList) (hset emptyHash "last_accessed" 86400000) ∉
        getUnusedEndpoints (2 * 86400000) 1
          [("GET:/a".toList, hset emptyHash "last_accessed" 0)] := by
  have hin : statsOfGlobalRec ("GET:/a".toList) (hset emptyHash "last_accessed" 0) ∈
      getEndpointStats [("GET:/a".toList, hset emptyHash "last_accessed" 0)] := by
    simp [getEndpointStats, List.mem_mergeSort]
  have hold : (statsOfGlobalRec ("GET:/a".toList)
      (hset emptyHash "last_accessed" 0)).lastAccessed =
      ((2 * 86400000 : ℤ) : ℚ) - (((1 : ℤ) : ℚ) + 1) * 86400000 := by
    norm_num [statsOfGlobalRec, hset, emptyHash]
  have hat : (statsOfGlobalRec ("GET:/a".toList)
      (hset emptyHash "last_accessed" 86400000)).lastAccessed =
      ((2 * 86400000 : ℤ) : ℚ) - ((1 : ℤ) : ℚ) * 86400000 := by
    norm_num [statsOfGlobalRec, hset, emptyHash]
  exact ⟨hin, hold,
    (c6_unused_strict_threshold (2 * 86400000) 1
      [("GET:/a".toList, hset emptyHash "last_accessed" 0)]
      (statsOfGlobalRec ("GET:/a".toList)
        (hset emptyHash "last_accessed" 0))).2.2 hin hold,
    hat,
    (c6_unused_strict_threshold (2 * 86400000) 1
      [("GET:/a".toList, hset emptyHash "last_accessed" 0)]
      (statsOfGlobalRec ("GET:/a".toList)
        (hset emptyHash "last_accessed" 86400000))).2.1 hat⟩

/-- C5: for the percentiles the tracker uses (50, 95, 99),
`calculatePercentile` returns the element of the ascending-sorted samples
at index `ceil(p/100 · n) − 1` clamped to `[0, n − 1]`; an empty sample
list yields 0 for every percentile, and a single-sample list yields that
sample. -/
theorem c5_percentile_index (values : List ℚ) (p q x : ℚ)
    (hp : p = 50 ∨ p = 95 ∨ p = 99) :
    calculatePercentile values p =
      (if values = [] then 0
       else (values.mergeSort (fun a b => decide (a ≤ b))).getD
         (min (values.length - 1)
           (max 0 (⌈p / 100 * (values.length : ℚ)⌉ - 1)).toNat) 0)
    ∧ calculatePercentile [] q = 0
    ∧ calculatePercentile [x] p = x := by
  have hp1 : 0 < p := by
    rcases hp with h | h | h <;> rw [h] <;> norm_num
  have hp2 : p ≤ 100 := by
    rcases hp with h | h | h <;> rw [h] <;> norm_num
  have hdiv1 : p / 100 ≤ 1 := by
    rw [div_le_one (by norm_num : (0 : ℚ) < 100)]
    exact hp2
  have hdivpos : 0 < p / 100 := div_pos hp1 (by norm_num)
  refine ⟨?_, by simp [calculatePercentile], ?_⟩
  · unfold calculatePercentile
    by_cases hv : values = []
    · simp [hv]
    · rw [if_neg hv, if_neg hv]
      simp only [List.length_mergeSort]
      have hn : 1 ≤ values.length := by
        have := List.length_pos.mpr hv
        omega
      have hnq : (0 : ℚ) < (values.length : ℚ) := by
        exact_mod_cast Nat.lt_of_lt_of_le Nat.zero_lt_one hn
      have hcle : ⌈p / 100 * (values.length : ℚ)⌉ ≤ (values.length : ℤ) := by
        rw [Int.ceil_le]
        push_cast
        calc p / 100 * (values.length : ℚ)
            ≤ 1 * (values.length : ℚ) :=
              mul_le_mul_of_nonneg_right hdiv1 (le_of_lt hnq)
          _ = (values.length : ℚ) := one_mul _
      have hcpos : 1 ≤ ⌈p / 100 * (values.length : ℚ)⌉ :=
        Int.ceil_pos.mpr (mul_pos hdivpos hnq)
      congr 1
      omega
  · unfold calculatePercentile
    rw [if_neg (by simp : ¬(([x] : List ℚ) = []))]
    rw [List.mergeSort_singleton]
    have h1 : ⌈p / 100⌉ ≤ 1 := by
      rw [Int.ceil_le]
      push_cast
      exact hdiv1
    have h2 : 1 ≤ ⌈p / 100⌉ := Int.ceil_pos.mpr hdivpos
    have hone : ⌈p / 100⌉ = 1 := le_antisymm h1 h2
    simp [hone]

/-- Witness for C5 at samples `[3, 1, 2]`, `p = 95`, plus the empty and
singleton boundary instances. -/
theorem c5_percentile_index_witness :
    ((95 : ℚ) = 50 ∨ (95 : ℚ) = 95 ∨ (95 : ℚ) = 99)
    ∧ calculatePercentile [3, 1, 2] 95 =
      (if ([3, 1, 2] : List ℚ) = [] then 0
       else (([3, 1, 2] : List ℚ).mergeSort (fun a b => decide (a ≤ b))).getD
         (min (([3, 1, 2] : List ℚ).length - 1)
           (max 0 (⌈(95 : ℚ) / 100 * ((([3, 1, 2] : List ℚ).length) : ℚ)⌉ - 1)).toNat) 0)
    ∧ calculatePercentile [] 7 = 0
    ∧ calculatePercentile [5] 95 = 5 :=
  ⟨by norm_num,
   (c5_percentile_index [3, 1, 2] 95 7 5 (by norm_num)).1,
   (c5_percentile_index [3, 1, 2] 95 7 5 (by norm_num)).2.1,
   (c5_percentile_index [3, 1, 2] 95 7 (5 : ℚ) (by norm_num)).2.2⟩

/-! Lemmas about the character-level string operations. -/

theorem charOfNat_toNat_upper (n : ℕ) (h1 : 65 ≤ n) (h2 : n ≤ 90) :
    (Char.ofNat n).toNat = n := by
  unfold Char.ofNat
  rw [dif_pos (by left; omega : Nat.isValidChar n)]
  simp [Char.ofNatAux, Char.toNat]
  rfl

theorem toUpper_idem (c : Char) : c.toUpper.toUpper = c.toUpper := by
  by_cases h : c.toNat ≥ 97 ∧ c.toNat ≤ 122
  · have hd : c.toUpper = Char.ofNat (c.toNat - 32) := by
      unfold Char.toUpper
      rw [if_pos h]
    have ht : (Char.ofNat (c.toNat - 32)).toNat = c.toNat - 32 :=
      charOfNat_toNat_upper _ (by omega) (by omega)
    rw [hd]
    conv_lhs => unfold Char.toUpper
    rw [ht]
    rw [if_neg (by omega)]
  · have hc : c.toUpper = c := by
      unfold Char.toUpper
      rw [if_neg h]
    rw [hc, hc]

theorem toUpper_ne_colon (c : Char) (h : c ≠ ':') : c.toUpper ≠ ':' := by
  by_cases hcond : c.toNat ≥ 97 ∧ c.toNat ≤ 122
  · have hd : c.toUpper = Char.ofNat (c.toNat - 32) := by
      unfold Char.toUpper
      rw [if_pos hcond]
    rw [hd]
    intro he
    have h2 := congrArg Char.toNat he
    rw [charOfNat_toNat_upper _ (by omega) (by omega)] at h2
    have h58 : (':' : Char).toNat = 58 := rfl
    rw [h58] at h2
    omega
  · have hce : c.toUpper = c := by
      unfold Char.toUpper
      rw [if_neg hcond]
    rw [hce]
    exact h

theorem takeWhile_append_colon (l₁ l₂ : List Char)
    (h : ∀ c ∈ l₁, c ≠ ':') :
    (l₁ ++ ':' :: l₂).takeWhile (· ≠ ':') = l₁ := by
  induction l₁ with
  | nil => simp
  | cons a t ih =>
    have ha : a ≠ ':' := h a (by simp)
    simp only [List.cons_append, List.takeWhile_cons]
    rw [if_pos (by simpa using ha)]
    rw [ih (fun c hc => h c (by simp [hc]))]

theorem dropWhile_append_colon (l₁ l₂ : List Char)
    (h : ∀ c ∈ l₁, c ≠ ':') :
    (l₁ ++ ':' :: l₂).dropWhile (· ≠ ':') = ':' :: l₂ := by
  induction l₁ with
  | nil => simp
  | cons a t ih =>
    have ha : a ≠ ':' := h a (by simp)
    simp only [List.cons_append, List.dropWhile_cons]
    rw [if_pos (by simpa using ha)]
    exact ih (fun c hc => h c (by simp [hc]))

/-- C4: `getEndpointStats` and `getPerformanceStats` rebuild `(method,
path)` from the stored key remainder with `split(':', 2)`, keeping only the
first two colon-separated pieces; so whenever the normalized path itself
contains a colon (for example `/users/:id`, as produced by the `/:id`
substitution), the returned path is the prefix of the normalized path
before its first colon and no longer equals the path that was normalized at
write time.  (HTTP method names contain no colon, the hypothesis `hm`.) -/
theorem c4_split_colon_truncates_path (iqp : Bool) (m p : List Char)
    (hm : ∀ c ∈ m, c ≠ ':') (hc : ':' ∈ normalizePath iqp p) :
    splitColon2Fst (normalizeEndpoint iqp m p) = m.map Char.toUpper
    ∧ splitColon2Snd (normalizeEndpoint iqp m p) =
        (normalizePath iqp p).takeWhile (· ≠ ':')
    ∧ splitColon2Snd (normalizeEndpoint iqp m p) ≠ normalizePath iqp p := by
  have hmap : ∀ c ∈ m.map Char.toUpper, c ≠ ':' := by
    intro c hcm
    obtain ⟨a, ha, rfl⟩ := List.mem_map.mp hcm
    exact toUpper_ne_colon a (hm a ha)
  have h1 : splitColon2Fst (normalizeEndpoint iqp m p) = m.map Char.toUpper := by
    unfold splitColon2Fst normalizeEndpoint
    exact takeWhile_append_colon _ _ hmap
  have h2 : splitColon2Snd (normalizeEndpoint iqp m p) =
      (normalizePath iqp p).takeWhile (· ≠ ':') := by
    unfold splitColon2Snd normalizeEndpoint
    rw [dropWhile_append_colon _ _ hmap]
    simp
  refine ⟨h1, h2, ?_⟩
  rw [h2]
  intro heq
  have hall := List.takeWhile_eq_self_iff.mp heq
  have := hall ':' hc
  simp at this

/-- Witness for C4 at `GET /users/:id`. -/
theorem c4_split_colon_truncates_path_witness :
    (∀ c ∈ ("GET".toList), c ≠ ':')
    ∧ ':' ∈ normalizePath false ("/users/:id".toList)
    ∧ splitColon2Fst (normalizeEndpoint false ("GET".toList) ("/users/:id".toList)) =
        ("GET".toList).map Char.toUpper
    ∧ splitColon2Snd (normalizeEndpoint false ("GET".toList) ("/users/:id".toList)) =
        (normalizePath false ("/users/:id".toList)).takeWhile (· ≠ ':')
    ∧ splitColon2Snd (normalizeEndpoint false ("GET".toList) ("/users/:id".toList)) ≠
        normalizePath false ("/users/:id".toList) := by
  have hm : ∀ c ∈ ("GET".toList), c ≠ ':' := by decide
  have hc : ':' ∈ normalizePath false ("/users/:id".toList) := by
    simp [normalizePath, digitRep, uuidRep, headDigit, isH, isHexDash]
  obtain ⟨w1, w2, w3⟩ :=
    c4_split_colon_truncates_path false ("GET".toList) ("/users/:id".toList) hm hc
  exact ⟨hm, hc, w1, w2, w3⟩

/-! Fixed-point lemmas for `digitRep` and `uuidRep`, leading to the
idempotence of endpoint-key normalization (C9). -/

theorem head_digitRep (l : List Char) : (digitRep l).head? = l.head? := by
  cases l with
  | nil => rw [digitRep]
  | cons c t =>
    rw [digitRep]
    split
    · rename_i hcond
      simp only [List.head?_cons]
      have : c = '/' := by
        have := (Bool.and_eq_true _ _).mp hcond
        simpa using this.1
      rw [this]
    · simp

theorem head_uuidRep (l : List Char) : (uuidRep l).head? = l.head? := by
  cases l with
  | nil => rw [uuidRep]
  | cons c t =>
    rw [uuidRep]
    split
    · rename_i hcond
      simp only [List.head?_cons]
      have : c = '/' := by
        have := (Bool.and_eq_true _ _).mp hcond
        simpa using this.1
      rw [this]
    · simp

theorem noSD_cons (a : Char) (l : List Char) :
    noSD (a :: l) =
      ((match l.head? with
        | none => true
        | some b => !(a = '/' && b.isDigit)) && noSD l) := by
  cases l <;> simp [noSD]

theorem noSD_tail (a : Char) (l : List Char) (h : noSD (a :: l) = true) :
    noSD l = true := by
  rw [noSD_cons] at h
  exact ((Bool.and_eq_true _ _).mp h).2

theorem noSD_drop (k : ℕ) (l : List Char) (h : noSD l = true) :
    noSD (l.drop k) = true := by
  induction k generalizing l with
  | zero => simpa using h
  | succ n ih =>
    cases l with
    | nil => simp [noSD]
    | cons a t =>
      rw [List.drop_succ_cons]
      exact ih t (noSD_tail a t h)

theorem noSH_cons (c : Char) (l : List Char) :
    noSH (c :: l) = (!(c = '/' && isH 36 l) && noSH l) := rfl

theorem isH_of_isH_uuidRep (t : List Char) :
    ∀ n : ℕ, isH n (uuidRep t) = true → isH n t = true := by
  induction t with
  | nil =>
    intro n h
    simpa [uuidRep] using h
  | cons c r ih =>
    intro n h
    rw [uuidRep] at h
    split at h
    · rename_i hcond
      have hc : c = '/' := by
        have := (Bool.and_eq_true _ _).mp hcond
        simpa using this.1
      cases n with
      | zero => rfl
      | succ k =>
        rw [isH] at h
        have := (Bool.and_eq_true _ _).mp h
        have hfalse : isHexDash '/' = false := by decide
        rw [hfalse] at this
        exact absurd this.1 (by simp)
    · cases n with
      | zero => rfl
      | succ k =>
        rw [isH] at h ⊢
        have := (Bool.and_eq_true _ _).mp h
        exact (Bool.and_eq_true _ _).mpr ⟨this.1, ih k this.2⟩

theorem headDigit_head (l : List Char) :
    headDigit l = (match l.head? with
      | none => false
      | some b => b.isDigit) := by
  cases l <;> rfl

theorem noSD_cons_of_ne (a : Char) (l : List Char) (ha : a ≠ '/')
    (h : noSD l = true) : noSD (a :: l) = true := by
  cases l with
  | nil => rfl
  | cons b t =>
    have hf : (a = '/' && b.isDigit) = false := by simp [ha]
    simp [noSD, hf, h]

theorem noSD_cons_slash (l : List Char) (hh : headDigit l = false)
    (h : noSD l = true) : noSD ('/' :: l) = true := by
  cases l with
  | nil => rfl
  | cons b t =>
    have hb : b.isDigit = false := by simpa [headDigit] using hh
    simp [noSD, hb, h]

theorem noSD_slash_headDigit (l : List Char) (h : noSD ('/' :: l) = true) :
    headDigit l = false := by
  cases l with
  | nil => rfl
  | cons b t =>
    simp [noSD, headDigit] at h ⊢
    exact h.1

theorem isH_head_false (n : ℕ) (c : Char) (t : List Char)
    (hc : isHexDash c = false) : isH (n + 1) (c :: t) = false := by
  rw [isH, hc]
  rfl

theorem noSD_digitRep_aux :
    ∀ n : ℕ, ∀ t : List Char, t.length ≤ n → noSD (digitRep t) = true := by
  intro n
  induction n with
  | zero =>
    intro t ht
    have : t = [] := List.length_eq_zero.mp (Nat.le_zero.mp ht)
    subst this
    rw [digitRep]
    rfl
  | succ k ih =>
    intro t ht
    cases t with
    | nil =>
      rw [digitRep]
      rfl
    | cons c r =>
      have hlen : r.length ≤ k := by
        simp only [List.length_cons] at ht
        omega
      rw [digitRep]
      split
      · rename_i hcond
        have hdw : (r.dropWhile Char.isDigit).length ≤ k := by
          have := (List.dropWhile_sublist (l := r) Char.isDigit).length_le
          omega
        refine noSD_cons_slash _ (by rfl) ?_
        refine noSD_cons_of_ne ':' _ (by decide) ?_
        refine noSD_cons_of_ne 'i' _ (by decide) ?_
        exact noSD_cons_of_ne 'd' _ (by decide) (ih _ hdw)
      · rename_i hcond
        by_cases hcs : c = '/'
        · have hdr : headDigit r = false := by
            cases hb : headDigit r
            · rfl
            · exact absurd (by simp [hcs, hb]) hcond
          have : headDigit (digitRep r) = false := by
            rw [headDigit_head, head_digitRep, ← headDigit_head]
            exact hdr
          subst hcs
          exact noSD_cons_slash _ this (ih r hlen)
        · exact noSD_cons_of_ne c _ hcs (ih r hlen)

theorem noSD_digitRep (l : List Char) : noSD (digitRep l) = true :=
  noSD_digitRep_aux l.length l (le_refl _)

theorem noSD_uuidRep_aux :
    ∀ n : ℕ, ∀ t : List Char, t.length ≤ n → noSD t = true →
      noSD (uuidRep t) = true := by
  intro n
  induction n with
  | zero =>
    intro t ht _
    have : t = [] := List.length_eq_zero.mp (Nat.le_zero.mp ht)
    subst this
    rw [uuidRep]
    rfl
  | succ k ih =>
    intro t ht hsd
    cases t with
    | nil =>
      rw [uuidRep]
      rfl
    | cons c r =>
      have hlen : r.length ≤ k := by
        simp only [List.length_cons] at ht
        omega
      have hr : noSD r = true := noSD_tail c r hsd
      rw [uuidRep]
      split
      · rename_i hcond
        have hdrop : (r.drop 36).length ≤ k := by
          have := List.length_drop 36 r
          omega
        have hdropSD : noSD (r.drop 36) = true := noSD_drop 36 r hr
        refine noSD_cons_slash _ (by rfl) ?_
        refine noSD_cons_of_ne ':' _ (by decide) ?_
        refine noSD_cons_of_ne 'u' _ (by decide) ?_
        refine noSD_cons_of_ne 'u' _ (by decide) ?_
        refine noSD_cons_of_ne 'i' _ (by decide) ?_
        exact noSD_cons_of_ne 'd' _ (by decide) (ih _ hdrop hdropSD)
      · rename_i hcond
        by_cases hcs : c = '/'
        · subst hcs
          have hdr : headDigit r = false := noSD_slash_headDigit r hsd
          have : headDigit (uuidRep r) = false := by
            rw [headDigit_head, head_uuidRep, ← headDigit_head]
            exact hdr
          exact noSD_cons_slash _ this (ih r hlen hr)
        · exact noSD_cons_of_ne c _ hcs (ih r hlen hr)

theorem noSD_uuidRep (l : List Char) (h : noSD l = true) :
    noSD (uuidRep l) = true :=
  noSD_uuidRep_aux l.length l (le_refl _) h

theorem noSH_uuidRep_aux :
    ∀ n : ℕ, ∀ t : List Char, t.length ≤ n → noSH (uuidRep t) = true := by
  intro n
  induction n with
  | zero =>
    intro t ht
    have : t = [] := List.length_eq_zero.mp (Nat.le_zero.mp ht)
    subst this
    rw [uuidRep]
    rfl
  | succ k ih =>
    intro t ht
    cases t with
    | nil =>
      rw [uuidRep]
      rfl
    | cons c r =>
      have hlen : r.length ≤ k := by
        simp only [List.length_cons] at ht
        omega
      rw [uuidRep]
      split
      · rename_i hcond
        have hdrop : (r.drop 36).length ≤ k := by
          have := List.length_drop 36 r
          omega
        have hA : isH 36 (':' :: 'u' :: 'u' :: 'i' :: 'd' :: uuidRep (r.drop 36)) =
            false := isH_head_false 35 ':' _ (by decide)
        rw [noSH_cons, hA]
        rw [noSH_cons]
        rw [noSH_cons]
        rw [noSH_cons]
        rw [noSH_cons]
        rw [noSH_cons]
        rw [ih _ hdrop]
        simp [isHexDash]
      · rename_i hcond
        have hr : noSH (uuidRep r) = true := ih r hlen
        rw [noSH_cons, hr]
        by_cases hcs : c = '/'
        · have h36 : isH 36 r = false := by
            cases hb : isH 36 r
            · rfl
            · exact absurd (by simp [hcs, hb]) hcond
          have h36u : isH 36 (uuidRep r) = false := by
            cases hb : isH 36 (uuidRep r)
            · rfl
            · exact absurd (isH_of_isH_uuidRep r 36 hb) (by rw [h36]; simp)
          simp [hcs, h36u]
        · simp [hcs]

theorem noSH_uuidRep (l : List Char) : noSH (uuidRep l) = true :=
  noSH_uuidRep_aux l.length l (le_refl _)

theorem noSD_fixed : ∀ l : List Char, noSD l = true → digitRep l = l := by
  intro l
  induction l with
  | nil =>
    intro _
    rw [digitRep]
  | cons c r ih =>
    intro h
    rw [digitRep]
    split
    · rename_i hcond
      have hc : c = '/' := by
        have := (Bool.and_eq_true _ _).mp hcond
        simpa using this.1
      have hd : headDigit r = true := ((Bool.and_eq_true _ _).mp hcond).2
      subst hc
      rw [noSD_slash_headDigit r h] at hd
      exact absurd hd (by simp)
    · rw [ih (noSD_tail c r h)]

theorem noSH_fixed : ∀ l : List Char, noSH l = true → uuidRep l = l := by
  intro l
  induction l with
  | nil =>
    intro _
    rw [uuidRep]
  | cons c r ih =>
    intro h
    rw [noSH_cons] at h
    obtain ⟨h1, h2⟩ := (Bool.and_eq_true _ _).mp h
    rw [uuidRep]
    split
    · rename_i hcond
      rw [hcond] at h1
      exact absurd h1 (by simp)
    · rw [ih h2]

theorem noQ_takeWhile (l : List Char) : '?' ∉ l.takeWhile (· ≠ '?') := by
  intro h
  have := List.mem_takeWhile_imp h
  simp at this

theorem takeWhileQ_eq_self (l : List Char) (h : '?' ∉ l) :
    l.takeWhile (· ≠ '?') = l := by
  rw [List.takeWhile_eq_self_iff]
  intro x hx
  simp only [decide_eq_true_eq]
  intro hq
  rw [hq] at hx
  exact h hx

theorem noQ_digitRep_aux :
    ∀ n : ℕ, ∀ t : List Char, t.length ≤ n → '?' ∉ t → '?' ∉ digitRep t := by
  intro n
  induction n with
  | zero =>
    intro t ht _
    have : t = [] := List.length_eq_zero.mp (Nat.le_zero.mp ht)
    subst this
    rw [digitRep]
    simp
  | succ k ih =>
    intro t ht hq
    cases t with
    | nil =>
      rw [digitRep]
      simp
    | cons c r =>
      have hlen : r.length ≤ k := by
        simp only [List.length_cons] at ht
        omega
      have hqr : '?' ∉ r := fun hx => hq (List.mem_cons_of_mem c hx)
      rw [digitRep]
      split
      · have hdw : (r.dropWhile Char.isDigit).length ≤ k := by
          have := (List.dropWhile_sublist (l := r) Char.isDigit).length_le
          omega
        have hdq : '?' ∉ r.dropWhile Char.isDigit :=
          fun hx => hqr ((List.dropWhile_sublist Char.isDigit).subset hx)
        intro hmem
        simp only [List.mem_cons] at hmem
        rcases hmem with h | h | h | h | hmem
        · exact absurd h (by decide)
        · exact absurd h (by decide)
        · exact absurd h (by decide)
        · exact absurd h (by decide)
        · exact (ih _ hdw hdq) hmem
      · intro hmem
        simp only [List.mem_cons] at hmem
        rcases hmem with h | hmem
        · exact hq (by rw [h]; exact List.mem_cons_self c r)
        · exact (ih r hlen hqr) hmem

theorem noQ_uuidRep_aux :
    ∀ n : ℕ, ∀ t : List Char, t.length ≤ n → '?' ∉ t → '?' ∉ uuidRep t := by
  intro n
  induction n with
  | zero =>
    intro t ht _
    have : t = [] := List.length_eq_zero.mp (Nat.le_zero.mp ht)
    subst this
    rw [uuidRep]
    simp
  | succ k ih =>
    intro t ht hq
    cases t with
    | nil =>
      rw [uuidRep]
      simp
    | cons c r =>
      have hlen : r.length ≤ k := by
        simp only [List.length_cons] at ht
        omega
      have hqr : '?' ∉ r := fun hx => hq (List.mem_cons_of_mem c hx)
      rw [uuidRep]
      split
      · have hdr : (r.drop 36).length ≤ k := by
          have := List.length_drop 36 r
          omega
        have hdq : '?' ∉ r.drop 36 :=
          fun hx => hqr (List.drop_subset 36 r hx)
        intro hmem
        simp only [List.mem_cons] at hmem
        rcases hmem with h | h | h | h | h | h | hmem
        · exact absurd h (by decide)
        · exact absurd h (by decide)
        · exact absurd h (by decide)
        · exact absurd h (by decide)
        · exact absurd h (by decide)
        · exact absurd h (by decide)
        · exact (ih _ hdr hdq) hmem
      · intro hmem
        simp only [List.mem_cons] at hmem
        rcases hmem with h | hmem
        · exact hq (by rw [h]; exact List.mem_cons_self c r)
        · exact (ih r hlen hqr) hmem

theorem normalizePath_idem (iqp : Bool) (p : List Char) :
    normalizePath iqp (normalizePath iqp p) = normalizePath iqp p := by
  have main : ∀ q : List Char,
      digitRep (uuidRep (digitRep q)) = uuidRep (digitRep q)
      ∧ uuidRep (uuidRep (digitRep q)) = uuidRep (digitRep q) := by
    intro q
    have hSD : noSD (uuidRep (digitRep q)) = true :=
      noSD_uuidRep _ (noSD_digitRep q)
    have hSH : noSH (uuidRep (digitRep q)) = true := noSH_uuidRep _
    exact ⟨noSD_fixed _ hSD, noSH_fixed _ hSH⟩
  cases iqp with
  | true =>
    unfold normalizePath
    simp only [if_true]
    rw [(main p).1, (main p).2]
  | false =>
    unfold normalizePath
    simp only [Bool.false_eq_true, if_false]
    have hq : '?' ∉ p.takeWhile (· ≠ '?') := noQ_takeWhile p
    have h1 : '?' ∉ digitRep (p.takeWhile (· ≠ '?')) :=
      noQ_digitRep_aux _ _ (le_refl _) hq
    have h2 : '?' ∉ uuidRep (digitRep (p.takeWhile (· ≠ '?'))) :=
      noQ_uuidRep_aux _ _ (le_refl _) h1
    rw [takeWhileQ_eq_self _ h2]
    rw [(main _).1, (main _).2]

/-- C9: endpoint-key normalization is idempotent — applying
`normalizeEndpoint` to the method and path produced by a previous
normalization (the upper-cased method and the rewritten path) yields the
same endpoint key. -/
theorem c9_normalize_idempotent (iqp : Bool) (m p : List Char) :
    normalizeEndpoint iqp (m.map Char.toUpper) (normalizePath iqp p) =
      normalizeEndpoint iqp m p := by
  unfold normalizeEndpoint
  rw [normalizePath_idem]
  have hupper : (m.map Char.toUpper).map Char.toUpper = m.map Char.toUpper := by
    induction m with
    | nil => rfl
    | cons a t ih =>
      simp only [List.map_cons, List.cons.injEq]
      exact ⟨toUpper_idem a, by simpa using ih⟩
  rw [hupper]
